import Mathlib

/-!
Verification of `tensorflow_federated/python/program/native_platform.py`.

The Python module is embedded shallowly:

* TFF type signatures (`computation_types.Type`) become the inductive
  `CompType`; the four kinds dispatched on by the module (struct, federated,
  sequence, tensor) are constructors, and `func` stands for every other kind
  (such as `FunctionType`) that falls into the `else` branches.
* Python values become the inductive `PyVal`; `PyVal.ref` is the in-tree
  representation of a `NumpyValueReference` instance.
* Raised exceptions become `Except PyErr` results; `PyErr` keeps the Python
  exception class and message.
-/

inductive Placement where
  | clients
  | server
deriving DecidableEq, Repr

inductive CompType where
  | struct (fields : List (Option String × CompType))
  | federated (placement : Placement) (member : CompType)
  | sequence (element : CompType)
  | tensor (dtype : Nat)
  | func (parameter : CompType) (result : CompType)

inductive PyVal where
  | pynone
  | scalar (n : Int)
  | seqVal (elements : List PyVal)
  | structVal (fields : List (Option String × PyVal))
  | ref (value : PyVal) (type_signature : CompType)

theorem okBind {α β ε : Type} (a : α) (f : α → Except ε β) :
    (Except.ok a : Except ε α) >>= f = f a := rfl

theorem errorBind {α β ε : Type} (e : ε) (f : α → Except ε β) :
    (Except.error e : Except ε α) >>= f = .error e := rfl

theorem purePyEq {α ε : Type} (a : α) : (pure a : Except ε α) = .ok a := rfl

mutual

/-- Structural (Python `==`) equality of type signatures, together with its
lockstep version `CompType.fieldsEq` on struct field lists. -/
def CompType.structEq : CompType → CompType → Bool
  | .struct fs, .struct gs => CompType.fieldsEq fs gs
  | .federated p m, .federated q n => p == q && CompType.structEq m n
  | .sequence a, .sequence b => CompType.structEq a b
  | .tensor a, .tensor b => a == b
  | .func a c, .func b d => CompType.structEq a b && CompType.structEq c d
  | _, _ => false

def CompType.fieldsEq :
    List (Option String × CompType) → List (Option String × CompType) → Bool
  | [], [] => true
  | (n, t) :: fs, (m, s) :: gs =>
      n == m && CompType.structEq t s && CompType.fieldsEq fs gs
  | _, _ => false

end

theorem CompType.structEqIff :
    (∀ a b : CompType, CompType.structEq a b = true ↔ a = b) ∧
      (∀ fs gs : List (Option String × CompType),
        CompType.fieldsEq fs gs = true ↔ fs = gs) := by
  refine CompType.structEq.mutual_induct
    (fun a b => CompType.structEq a b = true ↔ a = b)
    (fun fs gs => CompType.fieldsEq fs gs = true ↔ fs = gs)
    ?_ ?_ ?_ ?_ ?_ ?_ ?_ ?_ ?_
  · intro fs gs ih
    simp [CompType.structEq, ih]
  · intro p m q n ih
    simp [CompType.structEq, ih, beq_iff_eq]
  · intro a b ih
    simp [CompType.structEq, ih]
  · intro a b
    simp [CompType.structEq, beq_iff_eq]
  · intro a c b d ih₁ ih₂
    simp [CompType.structEq, ih₁, ih₂]
  · intro t x h₁ h₂ h₃ h₄ h₅
    constructor
    · intro h
      exfalso
      rw [CompType.structEq.eq_def] at h
      split at h
      · exact h₁ _ _ rfl rfl
      · exact h₂ _ _ _ _ rfl rfl
      · exact h₃ _ _ rfl rfl
      · exact h₄ _ _ rfl rfl
      · exact h₅ _ _ _ _ rfl rfl
      · simp at h
    · rintro rfl
      cases t
      · exact (h₁ _ _ rfl rfl).elim
      · exact (h₂ _ _ _ _ rfl rfl).elim
      · exact (h₃ _ _ rfl rfl).elim
      · exact (h₄ _ _ rfl rfl).elim
      · exact (h₅ _ _ _ _ rfl rfl).elim
  · simp [CompType.fieldsEq]
  · intro n t fs m s gs ih₁ ih₂
    simp [CompType.fieldsEq, ih₁, ih₂, beq_iff_eq]
  · intro t x h₁ h₂
    constructor
    · intro h
      exfalso
      rw [CompType.fieldsEq.eq_def] at h
      split at h
      · exact h₁ rfl rfl
      · exact h₂ _ _ _ _ _ _ rfl rfl
      · simp at h
    · rintro rfl
      rcases t with _ | ⟨⟨n, s⟩, ts⟩
      · exact (h₁ rfl rfl).elim
      · exact (h₂ n s ts n s ts rfl rfl).elim

instance : DecidableEq CompType := fun a b =>
  decidable_of_iff (CompType.structEq a b = true) (CompType.structEqIff.1 a b)

mutual

/-- Structural (Python `==`) equality of values, with lockstep versions on
element lists (`PyVal.listEq`) and struct field lists (`PyVal.pyFieldsEq`). -/
def PyVal.structEq : PyVal → PyVal → Bool
  | .pynone, .pynone => true
  | .scalar a, .scalar b => a == b
  | .seqVal xs, .seqVal ys => PyVal.listEq xs ys
  | .structVal fs, .structVal gs => PyVal.pyFieldsEq fs gs
  | .ref v t, .ref w s => PyVal.structEq v w && CompType.structEq t s
  | _, _ => false

def PyVal.listEq : List PyVal → List PyVal → Bool
  | [], [] => true
  | x :: xs, y :: ys => PyVal.structEq x y && PyVal.listEq xs ys
  | _, _ => false

def PyVal.pyFieldsEq :
    List (Option String × PyVal) → List (Option String × PyVal) → Bool
  | [], [] => true
  | (n, v) :: fs, (m, w) :: gs =>
      n == m && PyVal.structEq v w && PyVal.pyFieldsEq fs gs
  | _, _ => false

end

theorem PyVal.pyStructEqIff :
    (∀ a b : PyVal, PyVal.structEq a b = true ↔ a = b) ∧
      ((∀ fs gs : List (Option String × PyVal),
          PyVal.pyFieldsEq fs gs = true ↔ fs = gs) ∧
        (∀ xs ys : List PyVal, PyVal.listEq xs ys = true ↔ xs = ys)) := by
  refine PyVal.structEq.mutual_induct
    (fun a b => PyVal.structEq a b = true ↔ a = b)
    (fun fs gs => PyVal.pyFieldsEq fs gs = true ↔ fs = gs)
    (fun xs ys => PyVal.listEq xs ys = true ↔ xs = ys)
    ?_ ?_ ?_ ?_ ?_ ?_ ?_ ?_ ?_ ?_ ?_ ?_
  · simp [PyVal.structEq]
  · intro a b
    simp [PyVal.structEq, beq_iff_eq]
  · intro xs ys ih
    simp [PyVal.structEq, ih]
  · intro fs gs ih
    simp [PyVal.structEq, ih]
  · intro v t w s ih
    simp [PyVal.structEq, ih, CompType.structEqIff.1]
  · intro t x h₁ h₂ h₃ h₄ h₅
    constructor
    · intro h
      exfalso
      rw [PyVal.structEq.eq_def] at h
      split at h
      · exact h₁ rfl rfl
      · exact h₂ _ _ rfl rfl
      · exact h₃ _ _ rfl rfl
      · exact h₄ _ _ rfl rfl
      · exact h₅ _ _ _ _ rfl rfl
      · simp at h
    · rintro rfl
      cases t
      · exact (h₁ rfl rfl).elim
      · exact (h₂ _ _ rfl rfl).elim
      · exact (h₃ _ _ rfl rfl).elim
      · exact (h₄ _ _ rfl rfl).elim
      · exact (h₅ _ _ _ _ rfl rfl).elim
  · simp [PyVal.listEq]
  · intro x xs y ys ih₁ ih₂
    simp [PyVal.listEq, ih₁, ih₂]
  · intro t x h₁ h₂
    constructor
    · intro h
      exfalso
      rw [PyVal.listEq.eq_def] at h
      split at h
      · exact h₁ rfl rfl
      · exact h₂ _ _ _ _ rfl rfl
      · simp at h
    · rintro rfl
      rcases t with _ | ⟨y, ys⟩
      · exact (h₁ rfl rfl).elim
      · exact (h₂ y ys y ys rfl rfl).elim
  · simp [PyVal.pyFieldsEq]
  · intro n v fs m w gs ih₁ ih₂
    simp [PyVal.pyFieldsEq, ih₁, ih₂, beq_iff_eq]
  · intro t x h₁ h₂
    constructor
    · intro h
      exfalso
      rw [PyVal.pyFieldsEq.eq_def] at h
      split at h
      · exact h₁ rfl rfl
      · exact h₂ _ _ _ _ _ _ rfl rfl
      · simp at h
    · rintro rfl
      rcases t with _ | ⟨⟨n, v⟩, ts⟩
      · exact (h₁ rfl rfl).elim
      · exact (h₂ n v ts n v ts rfl rfl).elim

instance : DecidableEq PyVal := fun a b =>
  decidable_of_iff (PyVal.structEq a b = true) (PyVal.pyStructEqIff.1 a b)

inductive PyErr where
  | typeErr (msg : String)
  | valueErr (msg : String)
  | notImplementedErr (msg : String)
deriving DecidableEq, Repr

def Placement.repr : Placement → String
  | .clients => "CLIENTS"
  | .server => "SERVER"

mutual

/-- String form of a type signature, standing for the type system's `__str__`
(an external collaborator); used only to build error messages. -/
def typeRepr : CompType → String
  | .struct fields => "<" ++ String.intercalate "," (fieldsRepr fields) ++ ">"
  | .federated placement member => typeRepr member ++ "@" ++ placement.repr
  | .sequence element => typeRepr element ++ "*"
  | .tensor dtype => "tensor" ++ toString dtype
  | .func parameter result => "(" ++ typeRepr parameter ++ " -> " ++ typeRepr result ++ ")"

def fieldsRepr : List (Option String × CompType) → List String
  | [] => []
  | (some name, t) :: rest => (name ++ "=" ++ typeRepr t) :: fieldsRepr rest
  | (none, t) :: rest => typeRepr t :: fieldsRepr rest

end

/-- `structure.from_container(value)`: view a Python container as an ordered
list of (optional name, value) pairs; non-containers raise `TypeError`. -/
def from_container : PyVal → Except PyErr (List (Option String × PyVal))
  | .structVal fields => .ok fields
  | .seqVal elements => .ok (elements.map fun element => (none, element))
  | _ => .error (.typeErr "Unable to determine container type.")

mutual

/-- `_create_structure_of_value_references(value, type_signature)`:
type-directed wrap of a value into a structure of `NumpyValueReference`s. -/
def _create_structure_of_value_references (value : PyVal) :
    CompType → Except PyErr PyVal
  | .struct element_types => do
      let elements ← from_container value
      let wrapped ← createElements (elements.map Prod.snd) element_types
      return .structVal wrapped
  | .federated _ member => _create_structure_of_value_references value member
  | .sequence element => .ok (.ref value (.sequence element))
  | .tensor dtype => .ok (.ref value (.tensor dtype))
  | t => .error (.notImplementedErr ("Unexpected type found: " ++ typeRepr t ++ "."))

/-- The `for element, (name, element_type) in zip(value, element_types)` loop
of `_create_structure_of_value_references`: walks the value's elements and the
type's fields in lockstep, stopping at the shorter list. -/
def createElements : List PyVal → List (Option String × CompType) →
    Except PyErr (List (Option String × PyVal))
  | _, [] => .ok []
  | [], _ :: _ => .ok []
  | element :: rest, (name, element_type) :: restTypes => do
      let wrapped ← _create_structure_of_value_references element element_type
      let tail ← createElements rest restTypes
      return (name, wrapped) :: tail

end

/-- The inner `_materialize(x)` helper of
`_materialize_structure_of_value_references`. -/
def _materialize : PyVal → PyVal
  | .ref value _ => value
  | x => x

mutual

/-- `_materialize_structure_of_value_references(value, type_signature)`:
type-directed unwrap replacing `NumpyValueReference` leaves by their values. -/
def _materialize_structure_of_value_references (value : PyVal) :
    CompType → Except PyErr PyVal
  | .struct element_types => do
      let elements ← from_container value
      let materialized ← materializeElements (elements.map Prod.snd) element_types
      return .structVal materialized
  | .federated _ member => _materialize_structure_of_value_references value member
  | .sequence _ => .ok (_materialize value)
  | .tensor _ => .ok (_materialize value)
  | _ => .ok value

/-- The zip loop of `_materialize_structure_of_value_references`. -/
def materializeElements : List PyVal → List (Option String × CompType) →
    Except PyErr (List (Option String × PyVal))
  | _, [] => .ok []
  | [], _ :: _ => .ok []
  | element :: rest, (name, element_type) :: restTypes => do
      let materialized ← _materialize_structure_of_value_references element element_type
      let tail ← materializeElements rest restTypes
      return (name, materialized) :: tail

end

/-- `TensorType`/`SequenceType` check of the `NumpyValueReference` constructor. -/
def isTensorOrSequence : CompType → Bool
  | .tensor _ => true
  | .sequence _ => true
  | _ => false

/-- `Type.is_sequence()`. -/
def CompType.is_sequence : CompType → Bool
  | .sequence _ => true
  | _ => false

/-- `NumpyValueReference`: an immutable pair of a raw numpy value and its
declared type signature (`self._value`, `self._type_signature`). -/
structure NumpyValueReference where
  value : PyVal
  type_signature : CompType
deriving DecidableEq

/-- `list(x)`: Python iteration over a value; sequences and structs are
iterable, scalars, `None` and references are not (`TypeError`). -/
def pyList : PyVal → Except PyErr (List PyVal)
  | .seqVal elements => .ok elements
  | .structVal fields => .ok (fields.map Prod.snd)
  | _ => .error (.typeErr "object is not iterable")

/-- The `self is other` identity test of `NumpyValueReference.__eq__`,
approximated by structural equality of the two pairs (object identity implies
structural equality; the approximation only adds reflexive cases). -/
def NumpyValueReference.pyIs (a b : NumpyValueReference) : Bool :=
  PyVal.structEq a.value b.value && CompType.structEq a.type_signature b.type_signature

/-- `NumpyValueReference.__eq__(self, other)` (between two references, the
only case whose result the class itself decides). -/
def NumpyValueReference.eq (a b : NumpyValueReference) : Except PyErr Bool :=
  if NumpyValueReference.pyIs a b then .ok true
  else if !CompType.structEq a.type_signature b.type_signature then .ok false
  else if CompType.is_sequence a.type_signature then do
    let xs ← pyList a.value
    let ys ← pyList b.value
    return PyVal.listEq xs ys
  else
    .ok (PyVal.structEq a.value b.value)

mutual

/-- Modelled from the spec: `federated_context.contains_only_server_placed_data`
is defined in `federated_context.py`, which is not part of this source; the
spec states the result type "must contain only \x7bstruct, server-placed federated
value, tensor\x7d kinds recursively". `allServerPlaced` is its lift to struct
field lists. -/
def contains_only_server_placed_data : CompType → Bool
  | .struct fields => allServerPlaced fields
  | .federated placement member =>
      placement == .server && contains_only_server_placed_data member
  | .tensor _ => true
  | _ => false

def allServerPlaced : List (Option String × CompType) → Bool
  | [] => true
  | (_, t) :: rest => contains_only_server_placed_data t && allServerPlaced rest

end

mutual

/-- A type signature contains a client-placed federated value somewhere. -/
def containsClientPlaced : CompType → Bool
  | .struct fields => anyClientPlaced fields
  | .federated placement member =>
      placement == .clients || containsClientPlaced member
  | .sequence element => containsClientPlaced element
  | .tensor _ => false
  | .func parameter result =>
      containsClientPlaced parameter || containsClientPlaced result

def anyClientPlaced : List (Option String × CompType) → Bool
  | [] => false
  | (_, t) :: rest => containsClientPlaced t || anyClientPlaced rest

end

/-- A `tff.Computation`, reduced to its `type_signature`: the declared
parameter type (possibly absent) and result type. -/
structure TffComputation where
  parameter : Option CompType
  result : CompType

/-- The underlying execution engine (`context_base.Context`), an external
collaborator exposing `ingest` and `invoke`. -/
structure ExecutionContext where
  ctxIngest : PyVal → CompType → PyVal
  ctxInvoke : TffComputation → PyVal → PyVal

/-- One call made to the underlying execution engine. -/
inductive EngineCall where
  | ingestCall (value : PyVal) (type_spec : CompType)
  | invokeCall (comp : TffComputation) (arg : PyVal)

/-- `NativeFederatedContext.ingest(value, type_spec)`. -/
def NativeFederatedContext.ingest (value : PyVal) (type_spec : CompType) :
    Except PyErr PyVal :=
  _materialize_structure_of_value_references value type_spec

/-- Message of the `ValueError` raised by `NativeFederatedContext.invoke` when
the result type fails the server-placed-data precondition. -/
def resultTypeErrorMsg (result_type : CompType) : String :=
  "Expected the result type of the invoked computation to contain only " ++
    "structures, server-placed values, or tensors, found " ++
    typeRepr result_type ++ "."

/-- `NativeFederatedContext.invoke(comp, arg)`.  `context` is the engine handle
held by the adapter; `type_to_py_container` stands for the external collaborator
`type_conversions.type_to_py_container`.  Besides the Python return value (or
raised exception) the model returns the ordered list of engine calls made. -/
def NativeFederatedContext.invoke (context : ExecutionContext)
    (type_to_py_container : PyVal → CompType → PyVal)
    (comp : TffComputation) (arg : PyVal) :
    Except PyErr PyVal × List EngineCall :=
  let result_type := comp.result
  if !contains_only_server_placed_data result_type then
    (.error (.valueErr (resultTypeErrorMsg result_type)), [])
  else
    let ingested :=
      match comp.parameter with
      | some parameter_type =>
          (context.ctxIngest arg parameter_type,
            [EngineCall.ingestCall arg parameter_type])
      | none => (arg, [])
    let result := context.ctxInvoke comp ingested.1
    let calls := ingested.2 ++ [EngineCall.invokeCall comp ingested.1]
    match _create_structure_of_value_references result result_type with
    | .ok wrapped => (.ok (type_to_py_container wrapped result_type), calls)
    | .error e => (.error e, calls)

instance : Inhabited CompType := ⟨.tensor 0⟩

/-- A `tf.data.Dataset`, reduced to what the module inspects: its
`element_spec` (as the element's type signature) plus opaque content. -/
structure Dataset where
  element_spec : CompType
  content : Nat
deriving DecidableEq

instance : Inhabited Dataset := ⟨⟨.tensor 0, 0⟩⟩

/-- The `for dataset in datasets` homogeneity loop shared verbatim by
`DatasetDataSourceIterator.__init__` and `DatasetDataSource.__init__`:
every dataset's `element_spec` must equal `datasets[0].element_spec`. -/
def checkDatasets (first : Dataset) : List Dataset → Except PyErr Unit
  | [] => .ok ()
  | d :: rest =>
      if !CompType.structEq d.element_spec first.element_spec then
        .error (.valueErr ("Expected each `tf.data.Dataset` in `datasets` to " ++
          "have the same type specification, found " ++
          typeRepr first.element_spec ++ " and " ++
          typeRepr d.element_spec ++ "."))
      else checkDatasets first rest

/-- `DatasetDataSourceIterator`: holds the dataset collection and the
federated type passed at construction. -/
structure DatasetDataSourceIterator where
  datasets : List Dataset
  federated_type : CompType

/-- `DatasetDataSourceIterator.__init__(datasets, federated_type)`. -/
def DatasetDataSourceIterator.create (datasets : List Dataset)
    (federated_type : CompType) : Except PyErr DatasetDataSourceIterator :=
  match datasets with
  | [] => .error (.valueErr "Expected `datasets` to not be an empty list.")
  | ds@(first :: _) => do
      checkDatasets first ds
      match federated_type with
      | .federated placement member =>
          .ok ⟨ds, .federated placement member⟩
      | _ => .error (.typeErr "Expected federated_type to be a tff.FederatedType.")

/-- Message of the `ValueError` raised by `select`. -/
def selectErrorMsg : String :=
  "Expected `number_of_clients` to be a positive integer and less than the " ++
    "number of `datasets`."

/-- `random.choices(population, k)`: `k` independent uniform draws with
replacement, the randomness source modelled as a stream `rand` of numbers
(reduced modulo the population size to index it). -/
def randomChoices (population : List Dataset) (rand : Nat → Nat) (k : Nat) :
    List Dataset :=
  (List.range k).map fun i => population.getD (rand i % population.length) default

/-- `DatasetDataSourceIterator.select(number_of_clients)`; the returned
iterator component makes the (absent) state change explicit. -/
def DatasetDataSourceIterator.select (it : DatasetDataSourceIterator)
    (rand : Nat → Nat) (number_of_clients : Option Int) :
    Except PyErr (List Dataset) × DatasetDataSourceIterator :=
  match number_of_clients with
  | none => (.error (.valueErr selectErrorMsg), it)
  | some k =>
      if k < 0 || k > (it.datasets.length : Int) then
        (.error (.valueErr selectErrorMsg), it)
      else
        (.ok (randomChoices it.datasets rand k.toNat), it)

/-- `data_source.Capability`. -/
inductive Capability where
  | RANDOM_UNIFORM
deriving DecidableEq

/-- `DatasetDataSource`: holds the dataset collection and the derived
federated type. -/
structure DatasetDataSource where
  datasets : List Dataset
  federated_type : CompType

/-- `DatasetDataSource.__init__(datasets)`; on success `federated_type` is
`FederatedType(SequenceType(element_spec), CLIENTS)`. -/
def DatasetDataSource.create (datasets : List Dataset) :
    Except PyErr DatasetDataSource :=
  match datasets with
  | [] => .error (.valueErr "Expected `datasets` to not be an empty list.")
  | ds@(first :: _) => do
      checkDatasets first ds
      .ok ⟨ds, .federated .clients (.sequence first.element_spec)⟩

/-- `DatasetDataSource.capabilities`. -/
def DatasetDataSource.capabilities (_ : DatasetDataSource) : List Capability :=
  [.RANDOM_UNIFORM]

/-- `DatasetDataSource.iterator()`. -/
def DatasetDataSource.iterator (s : DatasetDataSource) :
    Except PyErr DatasetDataSourceIterator :=
  DatasetDataSourceIterator.create s.datasets s.federated_type

mutual

/-- A value structurally matches a type signature: struct types demand a
struct value with the same field names in the same order, federated types
defer to their member type, sequence and tensor leaves accept any value. -/
def valueMatchesType : PyVal → CompType → Bool
  | .structVal fs, .struct ts => fieldsMatchTypes fs ts
  | _, .struct _ => false
  | v, .federated _ member => valueMatchesType v member
  | _, .sequence _ => true
  | _, .tensor _ => true
  | _, .func _ _ => false

def fieldsMatchTypes :
    List (Option String × PyVal) → List (Option String × CompType) → Bool
  | [], [] => true
  | (n, v) :: fs, (m, t) :: ts =>
      n == m && valueMatchesType v t && fieldsMatchTypes fs ts
  | _, _ => false

end

theorem createElements_tensor (ts : List (Option String × CompType)) :
    ∀ vs : List PyVal, (∀ p ∈ ts, ∃ d, p.2 = CompType.tensor d) →
      createElements vs ts =
        .ok (List.zipWith
          (fun v (t : Option String × CompType) => (t.1, PyVal.ref v t.2)) vs ts) := by
  induction ts with
  | nil => intro vs _; cases vs <;> simp [createElements]
  | cons t ts ih =>
    intro vs h
    cases vs with
    | nil => simp [createElements]
    | cons v vs =>
      obtain ⟨d, hd⟩ := h t (by simp)
      obtain ⟨m, t2⟩ := t
      simp only at hd
      subst hd
      simp [createElements, _create_structure_of_value_references, okBind,
        ih vs (fun p hp => h p (by simp [hp]))]

theorem materializeElements_tensor (ts : List (Option String × CompType)) :
    ∀ vs : List PyVal, (∀ p ∈ ts, ∃ d, p.2 = CompType.tensor d) →
      materializeElements vs ts =
        .ok (List.zipWith
          (fun v (t : Option String × CompType) => (t.1, _materialize v)) vs ts) := by
  induction ts with
  | nil => intro vs _; cases vs <;> simp [materializeElements]
  | cons t ts ih =>
    intro vs h
    cases vs with
    | nil => simp [materializeElements]
    | cons v vs =>
      obtain ⟨d, hd⟩ := h t (by simp)
      obtain ⟨m, t2⟩ := t
      simp only at hd
      subst hd
      simp [materializeElements, _materialize_structure_of_value_references, okBind,
        ih vs (fun p hp => h p (by simp [hp])), _materialize]

/-- C4: on a type signature whose kind is none of struct, federated, sequence,
or tensor (here: a function type), `_create_structure_of_value_references`
raises `NotImplementedError` naming the type, while
`_materialize_structure_of_value_references` returns the value unchanged. -/
theorem claim_C4 (v : PyVal) (p r : CompType) :
    _create_structure_of_value_references v (.func p r) =
      .error (.notImplementedErr
        ("Unexpected type found: " ++ typeRepr (.func p r) ++ ".")) ∧
    _materialize_structure_of_value_references v (.func p r) = .ok v := by
  constructor
  · simp [_create_structure_of_value_references]
  · simp [_materialize_structure_of_value_references]

/-- C9: on a struct type, wrap and unwrap zip the value's elements with the
type's fields and stop at the shorter list: no error, surplus silently
dropped, the result holds exactly the zipped prefix (its length is the
minimum of the two lengths). -/
theorem claim_C9 (vs : List (Option String × PyVal))
    (ts : List (Option String × CompType))
    (h : ∀ p ∈ ts, ∃ d, p.2 = CompType.tensor d) :
    _create_structure_of_value_references (.structVal vs) (.struct ts) =
      .ok (.structVal
        (List.zipWith (fun v t => (t.1, PyVal.ref v.2 t.2)) vs ts)) ∧
    _materialize_structure_of_value_references (.structVal vs) (.struct ts) =
      .ok (.structVal
        (List.zipWith (fun v t => (t.1, _materialize v.2)) vs ts)) ∧
    (List.zipWith (fun v t => (t.1, PyVal.ref v.2 t.2)) vs ts).length =
      min vs.length ts.length := by
  refine ⟨?_, ?_, by simp⟩
  · simp [_create_structure_of_value_references, from_container, okBind,
      createElements_tensor ts (vs.map Prod.snd) h, List.zipWith_map_left]
  · simp [_materialize_structure_of_value_references, from_container, okBind,
      materializeElements_tensor ts (vs.map Prod.snd) h, List.zipWith_map_left]

/-- C9 witness: a three-element struct value against a one-field struct type:
both traversals succeed and keep only the zipped prefix of length one. -/
theorem claim_C9_witness :
    (∀ p ∈ [(some "a", CompType.tensor 0)], ∃ d, p.2 = CompType.tensor d) ∧
    _create_structure_of_value_references
        (.structVal [(some "x", .scalar 1), (some "y", .scalar 2), (some "z", .scalar 3)])
        (.struct [(some "a", CompType.tensor 0)]) =
      .ok (.structVal [(some "a", .ref (.scalar 1) (.tensor 0))]) ∧
    _materialize_structure_of_value_references
        (.structVal [(some "x", .scalar 1), (some "y", .scalar 2), (some "z", .scalar 3)])
        (.struct [(some "a", CompType.tensor 0)]) =
      .ok (.structVal [(some "a", .scalar 1)]) := by
  have h : ∀ p ∈ [(some "a", CompType.tensor 0)], ∃ d, p.2 = CompType.tensor d := by
    simp
  have h2 := claim_C9
    [(some "x", .scalar 1), (some "y", .scalar 2), (some "z", .scalar 3)]
    [(some "a", CompType.tensor 0)] h
  refine ⟨h, ?_, ?_⟩
  · simpa using h2.1
  · simpa [_materialize] using h2.2.1

/-- C3: `select(k)` errors exactly when `k` is missing, negative, or strictly
greater than the number of datasets; for `0 ≤ k ≤ N` it returns exactly `k`
items, each drawn from the original datasets; and it leaves the iterator's
state (dataset collection and federated type) unchanged. -/
theorem claim_C3 (it : DatasetDataSourceIterator) (rand : Nat → Nat)
    (nc : Option Int) :
    (it.select rand nc).2 = it ∧
    ((∃ e, (it.select rand nc).1 = .error e) ↔
      (nc = none ∨ ∃ k, nc = some k ∧ (k < 0 ∨ (it.datasets.length : Int) < k))) ∧
    (∀ k : Int, nc = some k → 0 ≤ k → k ≤ (it.datasets.length : Int) →
      ∃ l, (it.select rand nc).1 = .ok l ∧ (l.length : Int) = k ∧
        ∀ d ∈ l, d ∈ it.datasets) := by
  refine ⟨?_, ?_, ?_⟩
  · cases nc with
    | none => rfl
    | some k =>
      simp only [DatasetDataSourceIterator.select]
      split <;> rfl
  · cases nc with
    | none => simp [DatasetDataSourceIterator.select]
    | some k =>
      simp only [DatasetDataSourceIterator.select]
      by_cases hc : k < 0 ∨ (it.datasets.length : Int) < k
      · have : (decide (k < 0) || decide (k > (it.datasets.length : Int))) = true := by
          rcases hc with hc | hc <;> simp [hc]
        simp only [this, if_true]
        simp [hc]
      · have : (decide (k < 0) || decide (k > (it.datasets.length : Int))) = false := by
          push_neg at hc
          simp [not_lt.2 hc.1, not_lt.2 hc.2]
        simp only [this, if_false, Bool.false_eq_true]
        simp only [reduceCtorEq, exists_false, false_iff]
        push_neg
        refine ⟨by simp, fun k' hk' => ?_⟩
        cases hk'
        push_neg at hc
        exact hc
  · intro k hk h0 hN
    subst hk
    have hcond : (decide (k < 0) || decide (k > (it.datasets.length : Int))) = false := by
      simp [not_lt.2 h0, not_lt.2 hN]
    simp only [DatasetDataSourceIterator.select, hcond, if_false, Bool.false_eq_true]
    refine ⟨randomChoices it.datasets rand k.toNat, rfl, ?_, ?_⟩
    · simp [randomChoices, Int.toNat_of_nonneg h0]
    · intro d hd
      simp only [randomChoices, List.mem_map, List.mem_range] at hd
      obtain ⟨i, hi, rfl⟩ := hd
      have hpos : 0 < it.datasets.length := by
        rcases Nat.eq_zero_or_pos it.datasets.length with hz | hp
        · exfalso
          rw [hz] at hN
          have : k = 0 := le_antisymm (by exact_mod_cast hN) h0
          rw [this] at hi
          simp at hi
        · exact hp
      have hlt : rand i % it.datasets.length < it.datasets.length :=
        Nat.mod_lt _ hpos
      rw [List.getD_eq_getElem _ _ hlt]
      exact List.getElem_mem hlt

/-- C3 witness: an iterator over two datasets; `select 1` succeeds with one
item from the collection, and the bound and error characterization hold at
this concrete input. -/
theorem claim_C3_witness :
    (some (1 : Int) = some 1 ∧ (0 : Int) ≤ 1 ∧
      (1 : Int) ≤ ((DatasetDataSourceIterator.mk
        [⟨.tensor 0, 1⟩, ⟨.tensor 0, 2⟩]
        (.federated .clients (.sequence (.tensor 0)))).datasets.length : Int)) ∧
    ∃ l, ((DatasetDataSourceIterator.mk
        [⟨.tensor 0, 1⟩, ⟨.tensor 0, 2⟩]
        (.federated .clients (.sequence (.tensor 0)))).select (fun i => i)
          (some 1)).1 = .ok l ∧
      (l.length : Int) = 1 ∧
      ∀ d ∈ l, d ∈ (DatasetDataSourceIterator.mk
        [⟨.tensor 0, 1⟩, ⟨.tensor 0, 2⟩]
        (.federated .clients (.sequence (.tensor 0)))).datasets := by
  refine ⟨⟨rfl, by norm_num, by norm_num⟩, ?_⟩
  exact (claim_C3 (DatasetDataSourceIterator.mk
      [⟨.tensor 0, 1⟩, ⟨.tensor 0, 2⟩]
      (.federated .clients (.sequence (.tensor 0)))) (fun i => i)
      (some 1)).2.2 1 rfl (by norm_num) (by norm_num)

theorem checkDatasets_ok (first : Dataset) (l : List Dataset) :
    checkDatasets first l = .ok () ↔
      ∀ d ∈ l, d.element_spec = first.element_spec := by
  induction l with
  | nil => simp [checkDatasets]
  | cons d rest ih =>
    by_cases h : d.element_spec = first.element_spec
    · have hrefl : CompType.structEq first.element_spec first.element_spec = true :=
        (CompType.structEqIff.1 _ _).2 rfl
      simp [checkDatasets, h, hrefl, ih]
    · have hb : CompType.structEq d.element_spec first.element_spec = false :=
        Bool.eq_false_iff.2 fun hh => h ((CompType.structEqIff.1 _ _).1 hh)
      rw [checkDatasets, hb]
      simp [h]

theorem checkDatasets_error (first : Dataset) (l : List Dataset)
    (h : ∃ d ∈ l, d.element_spec ≠ first.element_spec) :
    ∃ msg, checkDatasets first l = .error (.valueErr msg) := by
  induction l with
  | nil => simp at h
  | cons d rest ih =>
    by_cases hd : d.element_spec = first.element_spec
    · have hb : CompType.structEq d.element_spec first.element_spec = true :=
        (CompType.structEqIff.1 _ _).2 hd
      rw [checkDatasets, hb]
      simp only [Bool.not_true, Bool.false_eq_true, if_false]
      apply ih
      rcases h with ⟨d', hd', hne⟩
      rcases List.mem_cons.1 hd' with rfl | hmem
      · exact absurd hd hne
      · exact ⟨d', hmem, hne⟩
    · have hb : CompType.structEq d.element_spec first.element_spec = false :=
        Bool.eq_false_iff.2 fun hh => hd ((CompType.structEqIff.1 _ _).1 hh)
      refine ⟨"Expected each `tf.data.Dataset` in `datasets` to " ++
          "have the same type specification, found " ++
          typeRepr first.element_spec ++ " and " ++
          typeRepr d.element_spec ++ ".", ?_⟩
      rw [checkDatasets, hb]
      simp

/-- C5: `DatasetDataSource` construction fails on an empty collection and on
any dataset whose element spec differs from the first's; a single dataset
always succeeds; and on success the held collection is the given non-empty
homogeneous one with `federated_type = Sequence(element spec)@CLIENTS`. -/
theorem claim_C5 (ds : List Dataset) :
    (ds = [] → DatasetDataSource.create ds =
      .error (.valueErr "Expected `datasets` to not be an empty list.")) ∧
    (∀ first rest, ds = first :: rest →
      (∃ d ∈ ds, d.element_spec ≠ first.element_spec) →
      ∃ msg, DatasetDataSource.create ds = .error (.valueErr msg)) ∧
    (∀ d : Dataset, DatasetDataSource.create [d] =
      .ok ⟨[d], .federated .clients (.sequence d.element_spec)⟩) ∧
    (∀ src, DatasetDataSource.create ds = .ok src →
      src.datasets = ds ∧ ds ≠ [] ∧
      ∀ first rest, ds = first :: rest →
        (∀ d ∈ ds, d.element_spec = first.element_spec) ∧
        src.federated_type = .federated .clients (.sequence first.element_spec)) := by
  refine ⟨?_, ?_, ?_, ?_⟩
  · rintro rfl
    rfl
  · rintro first rest rfl hbad
    obtain ⟨msg, hm⟩ := checkDatasets_error first (first :: rest) hbad
    exact ⟨msg, by simp [DatasetDataSource.create, hm, errorBind]⟩
  · intro d
    have hb : CompType.structEq d.element_spec d.element_spec = true :=
      (CompType.structEqIff.1 _ _).2 rfl
    simp [DatasetDataSource.create, checkDatasets, hb, okBind]
  · intro src h
    cases ds with
    | nil => simp [DatasetDataSource.create] at h
    | cons first rest =>
      rw [DatasetDataSource.create] at h
      cases hc : checkDatasets first (first :: rest) with
      | error e =>
        rw [hc, errorBind] at h
        exact absurd h (by simp)
      | ok u =>
        cases u
        rw [hc, okBind] at h
        injection h with h
        subst h
        refine ⟨rfl, by simp, ?_⟩
        rintro first' rest' heq
        injection heq with h1 h2
        subst h1
        subst h2
        exact ⟨(checkDatasets_ok first (first :: rest)).1 hc, rfl⟩

/-- C5 witness: two datasets with differing element specs are rejected; the
singleton construction succeeds with the derived clients-placed type. -/
theorem claim_C5_witness :
    ([(⟨.tensor 0, 1⟩ : Dataset), ⟨.tensor 1, 2⟩] =
      (⟨.tensor 0, 1⟩ : Dataset) :: [⟨.tensor 1, 2⟩]) ∧
    (∃ d ∈ [(⟨.tensor 0, 1⟩ : Dataset), ⟨.tensor 1, 2⟩],
      d.element_spec ≠ (⟨.tensor 0, 1⟩ : Dataset).element_spec) ∧
    (∃ msg, DatasetDataSource.create [(⟨.tensor 0, 1⟩ : Dataset), ⟨.tensor 1, 2⟩] =
      .error (.valueErr msg)) ∧
    DatasetDataSource.create [(⟨.tensor 5, 7⟩ : Dataset)] =
      .ok ⟨[⟨.tensor 5, 7⟩], .federated .clients (.sequence (.tensor 5))⟩ := by
  have hbad : ∃ d ∈ [(⟨.tensor 0, 1⟩ : Dataset), ⟨.tensor 1, 2⟩],
      d.element_spec ≠ (⟨.tensor 0, 1⟩ : Dataset).element_spec := by
    refine ⟨⟨.tensor 1, 2⟩, by simp, by simp⟩
  refine ⟨rfl, hbad, ?_, ?_⟩
  · exact (claim_C5 [⟨.tensor 0, 1⟩, ⟨.tensor 1, 2⟩]).2.1 ⟨.tensor 0, 1⟩
      [⟨.tensor 1, 2⟩] rfl hbad
  · exact (claim_C5 []).2.2.1 ⟨.tensor 5, 7⟩

/-- C8: `iterator()` on a successfully constructed data source always returns
an iterator holding the very same dataset collection and federated type; the
re-run constructor checks provably never fail for such a source. -/
theorem claim_C8 (ds : List Dataset) (src : DatasetDataSource)
    (h : DatasetDataSource.create ds = .ok src) :
    src.iterator = .ok ⟨src.datasets, src.federated_type⟩ := by
  cases ds with
  | nil => simp [DatasetDataSource.create] at h
  | cons first rest =>
    rw [DatasetDataSource.create] at h
    cases hc : checkDatasets first (first :: rest) with
    | error e =>
      rw [hc, errorBind] at h
      exact absurd h (by simp)
    | ok u =>
      cases u
      rw [hc, okBind] at h
      injection h with h
      subst h
      simp [DatasetDataSource.iterator, DatasetDataSourceIterator.create, hc, okBind]

/-- C8 witness: a concrete two-dataset source; its iterator shares the
collection and the federated type. -/
theorem claim_C8_witness :
    DatasetDataSource.create [(⟨.tensor 0, 1⟩ : Dataset), ⟨.tensor 0, 2⟩] =
      .ok ⟨[⟨.tensor 0, 1⟩, ⟨.tensor 0, 2⟩],
        .federated .clients (.sequence (.tensor 0))⟩ ∧
    (DatasetDataSource.mk [(⟨.tensor 0, 1⟩ : Dataset), ⟨.tensor 0, 2⟩]
        (.federated .clients (.sequence (.tensor 0)))).iterator =
      .ok ⟨[⟨.tensor 0, 1⟩, ⟨.tensor 0, 2⟩],
        .federated .clients (.sequence (.tensor 0))⟩ := by
  have hcreate : DatasetDataSource.create [(⟨.tensor 0, 1⟩ : Dataset), ⟨.tensor 0, 2⟩] =
      .ok ⟨[⟨.tensor 0, 1⟩, ⟨.tensor 0, 2⟩],
        .federated .clients (.sequence (.tensor 0))⟩ := by
    have hb : CompType.structEq (CompType.tensor 0) (CompType.tensor 0) = true :=
      (CompType.structEqIff.1 _ _).2 rfl
    simp [DatasetDataSource.create, checkDatasets, hb, okBind]
  exact ⟨hcreate, claim_C8 _ _ hcreate⟩

/-- C10: the directly constructed iterator accepts any `FederatedType`
whatsoever together with any valid dataset collection — nothing relates the
type to the datasets' element specs — and `federated_type` returns exactly
the object passed at construction, unchanged by any `select` call. -/
theorem claim_C10 (first : Dataset) (rest : List Dataset) (p : Placement)
    (m : CompType)
    (h : ∀ d ∈ first :: rest, d.element_spec = first.element_spec) :
    ∃ it, DatasetDataSourceIterator.create (first :: rest) (.federated p m) =
        .ok it ∧
      it.federated_type = .federated p m ∧
      it.datasets = first :: rest ∧
      ∀ rand nc, ((it.select rand nc).2).federated_type = .federated p m := by
  have hc : checkDatasets first (first :: rest) = .ok () :=
    (checkDatasets_ok first (first :: rest)).2 h
  refine ⟨⟨first :: rest, .federated p m⟩, ?_, rfl, rfl, ?_⟩
  · simp [DatasetDataSourceIterator.create, hc, okBind]
  · intro rand nc
    cases nc with
    | none => rfl
    | some k =>
      simp only [DatasetDataSourceIterator.select]
      split <;> rfl

/-- C10 witness: datasets whose element spec is a 0-dtype tensor paired with a
completely unrelated server-placed federated type are accepted unchanged. -/
theorem claim_C10_witness :
    (∀ d ∈ [(⟨.tensor 0, 1⟩ : Dataset)],
      d.element_spec = (⟨.tensor 0, 1⟩ : Dataset).element_spec) ∧
    ∃ it, DatasetDataSourceIterator.create [(⟨.tensor 0, 1⟩ : Dataset)]
        (.federated .server (.func (.tensor 9) (.tensor 9))) = .ok it ∧
      it.federated_type = .federated .server (.func (.tensor 9) (.tensor 9)) ∧
      it.datasets = [⟨.tensor 0, 1⟩] ∧
      ∀ rand nc, ((it.select rand nc).2).federated_type =
        .federated .server (.func (.tensor 9) (.tensor 9)) := by
  refine ⟨by simp, ?_⟩
  exact claim_C10 ⟨.tensor 0, 1⟩ [] .server (.func (.tensor 9) (.tensor 9))
    (by simp)

theorem roundtrip_create_materialize :
    (∀ (v : PyVal) (t : CompType), valueMatchesType v t = true →
      ∃ w, _create_structure_of_value_references v t = .ok w ∧
        _materialize_structure_of_value_references w t = .ok v) ∧
    (∀ (fs : List (Option String × PyVal)) (ts : List (Option String × CompType)),
      fieldsMatchTypes fs ts = true →
      ∃ ws, createElements (fs.map Prod.snd) ts = .ok ws ∧
        materializeElements (ws.map Prod.snd) ts = .ok fs) := by
  refine valueMatchesType.mutual_induct
    (fun v t => valueMatchesType v t = true →
      ∃ w, _create_structure_of_value_references v t = .ok w ∧
        _materialize_structure_of_value_references w t = .ok v)
    (fun fs ts => fieldsMatchTypes fs ts = true →
      ∃ ws, createElements (fs.map Prod.snd) ts = .ok ws ∧
        materializeElements (ws.map Prod.snd) ts = .ok fs)
    ?_ ?_ ?_ ?_ ?_ ?_ ?_ ?_ ?_
  · intro fs ts ih h
    simp only [valueMatchesType] at h
    obtain ⟨ws, h1, h2⟩ := ih h
    refine ⟨.structVal ws, ?_, ?_⟩
    · simp [_create_structure_of_value_references, from_container, okBind, h1]
    · simp [_materialize_structure_of_value_references, from_container, okBind, h2]
  · intro x fields hx h
    cases x
    all_goals first
      | exact (hx _ rfl).elim
      | simp [valueMatchesType] at h
  · intro v placement member ih h
    simp only [valueMatchesType] at h
    obtain ⟨w, h1, h2⟩ := ih h
    refine ⟨w, ?_, ?_⟩
    · simp [_create_structure_of_value_references, h1]
    · simp [_materialize_structure_of_value_references, h2]
  · intro x element _
    refine ⟨.ref x (.sequence element), ?_, ?_⟩
    · simp [_create_structure_of_value_references]
    · simp [_materialize_structure_of_value_references, _materialize]
  · intro x dtype _
    refine ⟨.ref x (.tensor dtype), ?_, ?_⟩
    · simp [_create_structure_of_value_references]
    · simp [_materialize_structure_of_value_references, _materialize]
  · intro x parameter result h
    simp [valueMatchesType] at h
  · intro _
    refine ⟨[], ?_, ?_⟩
    · simp [createElements]
    · simp [materializeElements]
  · intro n v fs m t ts ih₁ ih₂ h
    simp only [fieldsMatchTypes, Bool.and_eq_true, beq_iff_eq] at h
    obtain ⟨⟨rfl, hv⟩, hfs⟩ := h
    obtain ⟨w, hw1, hw2⟩ := ih₁ hv
    obtain ⟨ws, hs1, hs2⟩ := ih₂ hfs
    refine ⟨(n, w) :: ws, ?_, ?_⟩
    · simp [createElements, okBind, hw1, hs1]
    · simp [materializeElements, okBind, hw2, hs2]
  · intro t x h₁ h₂ h
    exfalso
    rw [fieldsMatchTypes.eq_def] at h
    split at h
    · exact h₁ rfl rfl
    · exact h₂ _ _ _ _ _ _ rfl rfl
    · simp at h

/-- C1: for every type signature built of struct, federated, sequence, and
tensor nodes and every value matching it, materializing the structure of
value references created from it returns a value structurally equal to the
original (struct field names and order preserved). -/
theorem claim_C1 (t : CompType) (v : PyVal)
    (h : valueMatchesType v t = true) :
    ∃ w, _create_structure_of_value_references v t = .ok w ∧
      _materialize_structure_of_value_references w t = .ok v :=
  roundtrip_create_materialize.1 v t h

/-- C1 witness: a concrete nested type (a struct holding a server-placed
tensor and a sequence) with a matching concrete value round-trips exactly. -/
theorem claim_C1_witness :
    valueMatchesType
        (.structVal [(some "a", .scalar 5), (none, .seqVal [.scalar 1, .scalar 2])])
        (.struct [(some "a", .federated .server (.tensor 0)),
          (none, .sequence (.tensor 1))]) = true ∧
    ∃ w, _create_structure_of_value_references
          (.structVal [(some "a", .scalar 5), (none, .seqVal [.scalar 1, .scalar 2])])
          (.struct [(some "a", .federated .server (.tensor 0)),
            (none, .sequence (.tensor 1))]) = .ok w ∧
      _materialize_structure_of_value_references w
          (.struct [(some "a", .federated .server (.tensor 0)),
            (none, .sequence (.tensor 1))]) =
        .ok (.structVal [(some "a", .scalar 5),
          (none, .seqVal [.scalar 1, .scalar 2])]) := by
  have hm : valueMatchesType
      (.structVal [(some "a", .scalar 5), (none, .seqVal [.scalar 1, .scalar 2])])
      (.struct [(some "a", .federated .server (.tensor 0)),
        (none, .sequence (.tensor 1))]) = true := by
    simp [valueMatchesType, fieldsMatchTypes]
  exact ⟨hm, claim_C1 _ _ hm⟩

theorem clientPlaced_not_server :
    (∀ t : CompType, containsClientPlaced t = true →
      contains_only_server_placed_data t = false) ∧
    (∀ fs : List (Option String × CompType), anyClientPlaced fs = true →
      allServerPlaced fs = false) := by
  refine containsClientPlaced.mutual_induct
    (fun t => containsClientPlaced t = true →
      contains_only_server_placed_data t = false)
    (fun fs => anyClientPlaced fs = true → allServerPlaced fs = false)
    ?_ ?_ ?_ ?_ ?_ ?_ ?_
  · intro fields ih h
    simp only [containsClientPlaced] at h
    simp [contains_only_server_placed_data, ih h]
  · intro placement member ih h
    simp only [containsClientPlaced, Bool.or_eq_true, beq_iff_eq] at h
    rcases h with rfl | h
    · simp [contains_only_server_placed_data]
    · simp [contains_only_server_placed_data, ih h]
  · intro element _ _
    simp [contains_only_server_placed_data]
  · intro dtype h
    simp [containsClientPlaced] at h
  · intro p r _ _ _
    simp [contains_only_server_placed_data]
  · intro h
    simp [anyClientPlaced] at h
  · intro fst t rest ih₁ ih₂ h
    simp only [anyClientPlaced, Bool.or_eq_true] at h
    rcases h with h | h
    · simp [allServerPlaced, ih₁ h]
    · simp [allServerPlaced, ih₂ h]

theorem from_container_error (v : PyVal) (e : PyErr)
    (h : from_container v = .error e) :
    e = .typeErr "Unable to determine container type." := by
  cases v <;> simp [from_container] at h <;> exact h.symm

theorem create_error_shape :
    (∀ (v : PyVal) (t : CompType) (e : PyErr),
      _create_structure_of_value_references v t = .error e →
      (∃ m, e = .typeErr m) ∨ (∃ m, e = .notImplementedErr m)) ∧
    (∀ (vs : List PyVal) (ts : List (Option String × CompType)) (e : PyErr),
      createElements vs ts = .error e →
      (∃ m, e = .typeErr m) ∨ (∃ m, e = .notImplementedErr m)) := by
  refine _create_structure_of_value_references.mutual_induct
    (fun v t => ∀ e, _create_structure_of_value_references v t = .error e →
      (∃ m, e = .typeErr m) ∨ (∃ m, e = .notImplementedErr m))
    (fun vs ts => ∀ e, createElements vs ts = .error e →
      (∃ m, e = .typeErr m) ∨ (∃ m, e = .notImplementedErr m))
    ?_ ?_ ?_ ?_ ?_ ?_ ?_ ?_
  · intro value element_types ih e he
    rw [_create_structure_of_value_references] at he
    cases hf : from_container value with
    | error e' =>
      rw [hf, errorBind] at he
      injection he with he
      subst he
      exact Or.inl ⟨_, from_container_error value _ hf⟩
    | ok elements =>
      rw [hf, okBind] at he
      cases hc : createElements (elements.map Prod.snd) element_types with
      | error e'' =>
        rw [hc, errorBind] at he
        injection he with he
        subst he
        exact ih elements _ hc
      | ok ws =>
        rw [hc, okBind] at he
        exact absurd he (by simp [purePyEq])
  · intro value placement member ih e he
    rw [_create_structure_of_value_references] at he
    exact ih e he
  · intro value element e he
    simp [_create_structure_of_value_references] at he
  · intro value dtype e he
    simp [_create_structure_of_value_references] at he
  · intro value t h1 h2 h3 h4 e he
    rw [_create_structure_of_value_references.eq_def] at he
    split at he
    · exact (h1 _ rfl).elim
    · exact (h2 _ _ rfl).elim
    · exact (h3 _ rfl).elim
    · exact (h4 _ rfl).elim
    · injection he with he
      exact Or.inr ⟨_, he.symm⟩
  · intro x e he
    simp [createElements] at he
  · intro head tail e he
    simp [createElements] at he
  · intro element rest name element_type restTypes ih₁ ih₂ e he
    rw [createElements] at he
    cases hc1 : _create_structure_of_value_references element element_type with
    | error e1 =>
      rw [hc1, errorBind] at he
      injection he with he
      subst he
      exact ih₁ _ hc1
    | ok w =>
      rw [hc1, okBind] at he
      cases hc2 : createElements rest restTypes with
      | error e2 =>
        rw [hc2, errorBind] at he
        injection he with he
        subst he
        exact ih₂ _ hc2
      | ok ws =>
        rw [hc2, okBind] at he
        exact absurd he (by simp [purePyEq])

/-- C2: `invoke` on a computation whose result type contains a client-placed
value raises the `ValueError` naming the offending type with no engine call
made; on a result type containing only structs, server-placed values, and
tensors that error is never raised. -/
theorem claim_C2 (context : ExecutionContext) (conv : PyVal → CompType → PyVal)
    (comp : TffComputation) (arg : PyVal) :
    (containsClientPlaced comp.result = true →
      NativeFederatedContext.invoke context conv comp arg =
        (.error (.valueErr (resultTypeErrorMsg comp.result)), [])) ∧
    (contains_only_server_placed_data comp.result = true →
      (NativeFederatedContext.invoke context conv comp arg).1 ≠
        .error (.valueErr (resultTypeErrorMsg comp.result))) := by
  constructor
  · intro h
    have hf : contains_only_server_placed_data comp.result = false :=
      clientPlaced_not_server.1 comp.result h
    simp [NativeFederatedContext.invoke, hf]
  · intro h
    simp only [NativeFederatedContext.invoke, h, Bool.not_true,
      Bool.false_eq_true, if_false]
    cases hc : _create_structure_of_value_references
        (context.ctxInvoke comp
          (match comp.parameter with
            | some parameter_type =>
                (context.ctxIngest arg parameter_type,
                  [EngineCall.ingestCall arg parameter_type])
            | none => (arg, [])).1)
        comp.result with
    | ok w => simp [hc]
    | error e =>
      simp only [hc]
      intro heq
      injection heq with heq
      rcases create_error_shape.1 _ _ _ hc with ⟨m, rfl⟩ | ⟨m, rfl⟩ <;>
        simp at heq

/-- C2 witness: a client-placed result type is rejected with an empty engine
trace; a server-placed result type passes the gate. -/
theorem claim_C2_witness :
    (containsClientPlaced
      (TffComputation.mk none (.federated .clients (.tensor 0))).result = true ∧
      NativeFederatedContext.invoke ⟨fun v _ => v, fun _ _ => .scalar 7⟩
          (fun w _ => w) ⟨none, .federated .clients (.tensor 0)⟩ .pynone =
        (.error (.valueErr (resultTypeErrorMsg (.federated .clients (.tensor 0)))),
          [])) ∧
    (contains_only_server_placed_data
      (TffComputation.mk none (.federated .server (.tensor 0))).result = true ∧
      (NativeFederatedContext.invoke ⟨fun v _ => v, fun _ _ => .scalar 7⟩
          (fun w _ => w) ⟨none, .federated .server (.tensor 0)⟩ .pynone).1 ≠
        .error (.valueErr (resultTypeErrorMsg (.federated .server (.tensor 0))))) := by
  constructor
  · have h : containsClientPlaced
        (TffComputation.mk none (.federated .clients (.tensor 0))).result = true := by
      simp [containsClientPlaced]
    exact ⟨h, (claim_C2 ⟨fun v _ => v, fun _ _ => .scalar 7⟩ (fun w _ => w)
      ⟨none, .federated .clients (.tensor 0)⟩ .pynone).1 h⟩
  · have h : contains_only_server_placed_data
        (TffComputation.mk none (.federated .server (.tensor 0))).result = true := by
      simp [contains_only_server_placed_data]
    exact ⟨h, (claim_C2 ⟨fun v _ => v, fun _ _ => .scalar 7⟩ (fun w _ => w)
      ⟨none, .federated .server (.tensor 0)⟩ .pynone).2 h⟩

/-- Recognizer for engine `ingest` calls in a trace. -/
def isIngestCall : EngineCall → Bool
  | .ingestCall _ _ => true
  | _ => false

/-- Recognizer for engine `invoke` calls in a trace. -/
def isInvokeCall : EngineCall → Bool
  | .invokeCall _ _ => true
  | _ => false

/-- C7 (amended): when the result-type precondition holds, every `invoke`
calls the engine's `invoke` exactly once, and the engine's `ingest` exactly
once if the computation declares a parameter type and zero times otherwise. -/
theorem claim_C7 (context : ExecutionContext) (conv : PyVal → CompType → PyVal)
    (comp : TffComputation) (arg : PyVal)
    (h : contains_only_server_placed_data comp.result = true) :
    (NativeFederatedContext.invoke context conv comp arg).2.countP
        (fun c => isInvokeCall c) = 1 ∧
    (NativeFederatedContext.invoke context conv comp arg).2.countP
        (fun c => isIngestCall c) =
      (if comp.parameter.isSome then 1 else 0) := by
  cases hp : comp.parameter with
  | none =>
    simp only [NativeFederatedContext.invoke, h, Bool.not_true,
      Bool.false_eq_true, if_false, hp]
    cases hc : _create_structure_of_value_references
        (context.ctxInvoke comp arg) comp.result <;>
      simp [hc, isIngestCall, isInvokeCall, List.countP_cons, List.countP_nil]
  | some pt =>
    simp only [NativeFederatedContext.invoke, h, Bool.not_true,
      Bool.false_eq_true, if_false, hp]
    cases hc : _create_structure_of_value_references
        (context.ctxInvoke comp (context.ctxIngest arg pt)) comp.result <;>
      simp [hc, isIngestCall, isInvokeCall, List.countP_cons, List.countP_nil]

/-- C7 counterexample: a computation declaring no parameter type (with a
tensor result, so the precondition holds) makes zero engine `ingest` calls
and one engine `invoke` call — not one of each as the claim states. -/
theorem claim_C7_counterexample :
    (NativeFederatedContext.invoke ⟨fun v _ => v, fun _ _ => .scalar 7⟩
        (fun w _ => w) ⟨none, .tensor 0⟩ .pynone).2.countP
      (fun c => isIngestCall c) = 0 ∧
    (NativeFederatedContext.invoke ⟨fun v _ => v, fun _ _ => .scalar 7⟩
        (fun w _ => w) ⟨none, .tensor 0⟩ .pynone).2.countP
      (fun c => isInvokeCall c) = 1 := by
  constructor <;>
    simp [NativeFederatedContext.invoke, contains_only_server_placed_data,
      _create_structure_of_value_references, isIngestCall, isInvokeCall,
      List.countP_cons, List.countP_nil]

/-- C7 witness: with a declared parameter type, exactly one `ingest` and one
`invoke` engine call are made. -/
theorem claim_C7_witness :
    contains_only_server_placed_data
      (TffComputation.mk (some (.tensor 0)) (.federated .server (.tensor 0))).result
        = true ∧
    (NativeFederatedContext.invoke ⟨fun v _ => v, fun _ _ => .scalar 7⟩
        (fun w _ => w) ⟨some (.tensor 0), .federated .server (.tensor 0)⟩
        .pynone).2.countP (fun c => isInvokeCall c) = 1 ∧
    (NativeFederatedContext.invoke ⟨fun v _ => v, fun _ _ => .scalar 7⟩
        (fun w _ => w) ⟨some (.tensor 0), .federated .server (.tensor 0)⟩
        .pynone).2.countP (fun c => isIngestCall c) = 1 := by
  have h : contains_only_server_placed_data
      (TffComputation.mk (some (.tensor 0)) (.federated .server (.tensor 0))).result
        = true := by
    simp [contains_only_server_placed_data]
  have h2 := claim_C7 ⟨fun v _ => v, fun _ _ => .scalar 7⟩ (fun w _ => w)
    ⟨some (.tensor 0), .federated .server (.tensor 0)⟩ .pynone h
  exact ⟨h, h2.1, by simpa using h2.2⟩

theorem pyIs_iff (a b : NumpyValueReference) :
    NumpyValueReference.pyIs a b = true ↔ a = b := by
  cases a with
  | mk va ta =>
    cases b with
    | mk vb tb =>
      simp [NumpyValueReference.pyIs, PyVal.pyStructEqIff.1,
        CompType.structEqIff.1]

/-- C6: two references compare equal iff their type signatures are equal and,
for sequence types, their materialized element sequences compare equal
elementwise, otherwise their raw values compare equal; identity (here: a
reference compared with itself) short-circuits to equal; and differing type
signatures always compare unequal, whatever the raw data. -/
theorem claim_C6 (a b : NumpyValueReference)
    (ha : CompType.is_sequence a.type_signature = true →
      ∃ xs, pyList a.value = .ok xs)
    (hb : CompType.is_sequence b.type_signature = true →
      ∃ ys, pyList b.value = .ok ys) :
    (NumpyValueReference.eq a b = .ok true ↔
      (a.type_signature = b.type_signature ∧
        ((CompType.is_sequence a.type_signature = true ∧
            ∃ xs ys, pyList a.value = .ok xs ∧ pyList b.value = .ok ys ∧ xs = ys) ∨
          (CompType.is_sequence a.type_signature = false ∧ a.value = b.value)))) ∧
    (a.type_signature ≠ b.type_signature →
      NumpyValueReference.eq a b = .ok false) ∧
    NumpyValueReference.eq a a = .ok true := by
  have hrefl : NumpyValueReference.pyIs a a = true := (pyIs_iff a a).2 rfl
  refine ⟨?_, ?_, by simp [NumpyValueReference.eq, hrefl]⟩
  · by_cases heq : a = b
    · subst heq
      have hLHS : NumpyValueReference.eq a a = .ok true := by
        simp [NumpyValueReference.eq, hrefl]
      rw [hLHS]
      constructor
      · intro _
        refine ⟨rfl, ?_⟩
        cases hseq : CompType.is_sequence a.type_signature with
        | true =>
          obtain ⟨xs, hxs⟩ := ha hseq
          exact Or.inl ⟨rfl, xs, xs, hxs, hxs, rfl⟩
        | false => exact Or.inr ⟨rfl, rfl⟩
      · intro _
        rfl
    · have hIs : NumpyValueReference.pyIs a b = false :=
        Bool.eq_false_iff.2 fun hh => heq ((pyIs_iff a b).1 hh)
      by_cases hty : a.type_signature = b.type_signature
      · have hbt : CompType.structEq a.type_signature b.type_signature = true :=
          (CompType.structEqIff.1 _ _).2 hty
        cases hseq : CompType.is_sequence a.type_signature with
        | true =>
          obtain ⟨xs, hxs⟩ := ha hseq
          obtain ⟨ys, hys⟩ := hb (hty ▸ hseq)
          have hLHS : NumpyValueReference.eq a b = .ok (PyVal.listEq xs ys) := by
            rw [NumpyValueReference.eq, hIs, hbt, hseq]
            simp [hxs, hys, okBind, purePyEq]
          rw [hLHS]
          constructor
          · intro h
            injection h with h
            exact ⟨hty, Or.inl ⟨rfl, xs, ys, hxs, hys,
              (PyVal.pyStructEqIff.2.2 xs ys).1 h⟩⟩
          · rintro ⟨-, ⟨-, xs', ys', hxs', hys', hxy⟩ | ⟨hcon, -⟩⟩
            · rw [hxs] at hxs'
              rw [hys] at hys'
              injection hxs' with hxs'
              injection hys' with hys'
              subst hxs'
              subst hys'
              rw [(PyVal.pyStructEqIff.2.2 _ _).2 hxy]
            · exact absurd hcon (by simp)
        | false =>
          have hLHS : NumpyValueReference.eq a b =
              .ok (PyVal.structEq a.value b.value) := by
            rw [NumpyValueReference.eq, hIs, hbt, hseq]
            simp
          rw [hLHS]
          constructor
          · intro h
            injection h with h
            exact ⟨hty, Or.inr ⟨rfl, (PyVal.pyStructEqIff.1 _ _).1 h⟩⟩
          · rintro ⟨-, ⟨hcon, -⟩ | ⟨-, hval⟩⟩
            · exact absurd hcon (by simp)
            · rw [(PyVal.pyStructEqIff.1 _ _).2 hval]
      · have hbt : CompType.structEq a.type_signature b.type_signature = false :=
          Bool.eq_false_iff.2 fun hh => hty ((CompType.structEqIff.1 _ _).1 hh)
        have hLHS : NumpyValueReference.eq a b = .ok false := by
          rw [NumpyValueReference.eq, hIs, hbt]
          simp
        rw [hLHS]
        simp [hty]
  · intro hty
    have hIs : NumpyValueReference.pyIs a b = false :=
      Bool.eq_false_iff.2 fun hh => hty (congrArg NumpyValueReference.type_signature
        ((pyIs_iff a b).1 hh))
    have hbt : CompType.structEq a.type_signature b.type_signature = false :=
      Bool.eq_false_iff.2 fun hh => hty ((CompType.structEqIff.1 _ _).1 hh)
    rw [NumpyValueReference.eq, hIs, hbt]
    simp

/-- C6 witness: a sequence-typed reference equals itself, and two references
with identical raw data but different tensor types compare unequal. -/
theorem claim_C6_witness :
    ((CompType.is_sequence (CompType.sequence (CompType.tensor 0)) = true →
        ∃ xs, pyList (PyVal.seqVal [PyVal.scalar 1]) = .ok xs) ∧
      NumpyValueReference.eq
        ⟨.seqVal [.scalar 1], .sequence (.tensor 0)⟩
        ⟨.seqVal [.scalar 1], .sequence (.tensor 0)⟩ = .ok true) ∧
    ((CompType.tensor 0 : CompType) ≠ CompType.tensor 1 ∧
      NumpyValueReference.eq ⟨.scalar 1, .tensor 0⟩ ⟨.scalar 1, .tensor 1⟩ =
        .ok false) := by
  have ha : CompType.is_sequence (CompType.sequence (CompType.tensor 0)) = true →
      ∃ xs, pyList (PyVal.seqVal [PyVal.scalar 1]) = .ok xs :=
    fun _ => ⟨[PyVal.scalar 1], by simp [pyList]⟩
  have hne : (CompType.tensor 0 : CompType) ≠ CompType.tensor 1 := by simp
  have hno : CompType.is_sequence (CompType.tensor 0) = true →
      ∃ xs, pyList (PyVal.scalar 1) = .ok xs := by
    intro h
    simp [CompType.is_sequence] at h
  have hno1 : CompType.is_sequence (CompType.tensor 1) = true →
      ∃ xs, pyList (PyVal.scalar 1) = .ok xs := by
    intro h
    simp [CompType.is_sequence] at h
  refine ⟨⟨ha, ?_⟩, hne, ?_⟩
  · exact (claim_C6 ⟨.seqVal [.scalar 1], .sequence (.tensor 0)⟩
      ⟨.seqVal [.scalar 1], .sequence (.tensor 0)⟩ ha ha).2.2
  · exact (claim_C6 ⟨.scalar 1, .tensor 0⟩ ⟨.scalar 1, .tensor 1⟩
      hno hno1).2.1 hne
